import Mathlib

/-!
Shallow embedding of `scripts/interactive_quicklook.py`, an interactive
quicklook dashboard over two datasets:

* a navigation dataset — a time-indexed table of samples (altitude, pitch,
  roll, KT19 brightness temperature, latitude, longitude), with a derived
  `hour_of_day` coordinate assigned at load time;
* a sea-ice-concentration (SIC) dataset — a time-indexed gridded field.

Modelling conventions:

* Timestamps are rationals counting seconds since the epoch.  A calendar
  day is its integer index `⌊t / 86400⌋`.  The code selects a day with
  `ds.sel(time=slice(f"{day}T00:00", f"{day}T23:59:59"))`; pandas resolves
  the stop label at the stored (nanosecond) resolution to the very end of
  that second, so the selection covers exactly the half-open interval
  `[day·86400, (day+1)·86400)`, which is how we embed it.
* Label-based slicing on the (monotonic) time index is embedded as an
  order-preserving filter by the bound predicate.
* Missing values (NaN) in the SIC grid are `Option.none`; `x.where(cond)`
  masks a cell to `none` whenever `cond` does not hold there (NaN cells
  fail every comparison and hence stay masked).
* Navigation samples are modelled with total (non-missing) values, so the
  `dropna` on longitude/latitude in `build_map` keeps every row.
-/

/-- One sample of the navigation dataset (`DS`): the time coordinate, the
data variables plotted by the app, and the `hour_of_day` coordinate that
`load_data` assigns along `time`. -/
structure NavRec where
  time : ℚ
  altitude : ℚ
  pitch : ℚ
  roll : ℚ
  t_kt19 : ℚ
  latitude : ℚ
  longitude : ℚ
  hour_of_day : ℚ
deriving Repr, DecidableEq

/-- The navigation dataset: a time-indexed list of samples (time assumed
monotonic in the source file, which slicing does not disturb). -/
abbrev NavDS := List NavRec

/-- Day index of a timestamp, as produced by `time.dt.strftime("%Y-%m-%d")`:
two timestamps render the same day string iff they fall in the same
86400-second calendar day. -/
def dayOf (t : ℚ) : ℤ := ⌊t / 86400⌋

/-- `hour_of_day` as computed at load:
`(hour*3600 + minute*60 + second) / 3600`, i.e. the whole-second offset
into the day divided by 3600. -/
def hodOf (t : ℚ) : ℚ := ((⌊t⌋ % 86400 : ℤ) : ℚ) / 3600

/-- `_sel_day`: `ds.sel(time=slice(f"{day}T00:00", f"{day}T23:59:59"))` —
keep the samples whose time falls within calendar day `day`. -/
def _sel_day (ds : NavDS) (day : ℤ) : NavDS :=
  ds.filter (fun r =>
    decide ((86400 * day : ℚ) ≤ r.time ∧ r.time < 86400 * (day + 1)))

/-- Consecutive blocks of `k` elements, dropping the ragged remainder:
the list layout of `coarsen(time=k, boundary="trim")`. -/
def chunksTrim (k : ℕ) (l : List α) : List (List α) :=
  if h : 0 < k ∧ k ≤ l.length then
    l.take k :: chunksTrim k (l.drop k)
  else []
termination_by l.length
decreasing_by simp only [List.length_drop]; omega

/-- Arithmetic mean of a list of rationals (0 on the empty list; only ever
used on non-empty blocks). -/
def meanQ (l : List ℚ) : ℚ := l.sum / l.length

/-- Field-wise mean of a block of navigation samples: `.mean()` applied to
a coarsened block averages every data variable and (with the default
`coord_func='mean'`) every coordinate along `time`, including `time`
itself and `hour_of_day`. -/
def blockMean (b : List NavRec) : NavRec where
  time := meanQ (b.map NavRec.time)
  altitude := meanQ (b.map NavRec.altitude)
  pitch := meanQ (b.map NavRec.pitch)
  roll := meanQ (b.map NavRec.roll)
  t_kt19 := meanQ (b.map NavRec.t_kt19)
  latitude := meanQ (b.map NavRec.latitude)
  longitude := meanQ (b.map NavRec.longitude)
  hour_of_day := meanQ (b.map NavRec.hour_of_day)

/-- `ds.coarsen(time=k, boundary="trim").mean()`: block-average over
consecutive groups of `k` time points, trimming the ragged remainder. -/
def coarsenMean (k : ℕ) (ds : NavDS) : NavDS :=
  (chunksTrim k ds).map blockMean

/-- `_prep_day`: select the day, then coarsen when the factor asks for it.
Python's `if coarsen and coarsen > 1` is truthy exactly when `1 < coarsen`
(for `coarsen = 0` the conjunction is already falsy). -/
def _prep_day (ds : NavDS) (day : ℤ) (coarsen : ℕ) : NavDS :=
  let ds_day := _sel_day ds day
  if 1 < coarsen then coarsenMean coarsen ds_day else ds_day

/-- `_filter_timerange`: with no range (or a half-missing one) return the
slice unchanged; otherwise `sel(time=slice(t0, t1))`, label-based and
hence inclusive at both ends. -/
def _filter_timerange (ds_day : NavDS) (t_range : Option (ℚ × ℚ)) : NavDS :=
  match t_range with
  | none => ds_day
  | some (t0, t1) => ds_day.filter (fun r => decide (t0 ≤ r.time ∧ r.time ≤ t1))

/-- `_make_timerange`'s data content: the min/max timestamps of the day's
slice of `DS` (`dsel.time.min()` / `dsel.time.max()`), or `none` when the
slice is empty.  The widget side (writing `w_timerange`) carries exactly
this pair. -/
def _make_timerange (ds : NavDS) (day : ℤ) : Option (ℚ × ℚ) :=
  match (_sel_day ds day).map NavRec.time with
  | [] => none
  | t :: ts => some (ts.foldl min t, ts.foldl max t)

/-- `DAYS = np.unique(DS.time.dt.strftime("%Y-%m-%d").values).tolist()`:
the distinct day indices occurring in the time coordinate. -/
def daysOf (ds : NavDS) : List ℤ :=
  (ds.map (fun r => dayOf r.time)).dedup

/-- The startup guard (lines 95–101): compute `DAYS` and raise
`RuntimeError` when it is empty, otherwise continue with it. -/
def startupDays (ds : NavDS) : Except String (List ℤ) :=
  let days := daysOf ds
  if days.length = 0 then
    Except.error "No days found in dataset - check the dataset path/time coordinate."
  else Except.ok days

/-- `_ds_for_view`: day selection + optional coarsening, then time-range
filtering. -/
def _ds_for_view (ds : NavDS) (day : ℤ) (coarsen : ℕ)
    (t_range : Option (ℚ × ℚ)) : NavDS :=
  _filter_timerange (_prep_day ds day coarsen) t_range

/-- One time step of the SIC dataset: its timestamp and the flattened grid
of concentration values at that time (`none` = NaN/masked cell). -/
structure SicSample where
  time : ℚ
  cells : List (Option ℚ)
deriving Repr, DecidableEq

/-- The SIC dataset (`ds_sic` after `squeeze()`): grid size plus the
time-indexed list of grid snapshots; lon/lat coordinates carry no
information the claims touch and are omitted. -/
structure SicDS where
  ncells : ℕ
  samples : List SicSample
deriving Repr, DecidableEq

/-- `ds_sic.where(ds_sic.sic <= 100)`: a cell keeps its value where the
condition holds and becomes NaN elsewhere; NaN cells fail the comparison
and stay NaN. -/
def sicWhereLe100 (ds : SicDS) : SicDS where
  ncells := ds.ncells
  samples := ds.samples.map (fun s =>
    { time := s.time
      cells := s.cells.map (fun c =>
        match c with
        | some v => if v ≤ 100 then some v else none
        | none => none) })

/-- `load_data`'s treatment of the navigation dataset: assign the
`hour_of_day` coordinate along `time`. -/
def loadNav (raw : NavDS) : NavDS :=
  raw.map (fun r => { r with hour_of_day := hodOf r.time })

/-- `load_data`'s treatment of the SIC dataset: mask concentrations above
100 (the `assign_coords` lines only mirror lon/lat into coordinates). -/
def loadSic (raw : SicDS) : SicDS := sicWhereLe100 raw

/-- `DS_SIC.sic.sel(time=slice(f"{day}T00:00", f"{day}T23:59:59"))`:
the SIC snapshots falling within the chosen day. -/
def sicSelDay (ds : SicDS) (day : ℤ) : List SicSample :=
  ds.samples.filter (fun s =>
    decide ((86400 * day : ℚ) ≤ s.time ∧ s.time < 86400 * (day + 1)))

/-- `mean("time")` over a set of snapshots at one grid cell: xarray's
default `skipna=True` averages the non-NaN values and yields NaN only when
every value is NaN. -/
def nanmean (vs : List ℚ) : Option ℚ :=
  if vs = [] then none else some (vs.sum / vs.length)

/-- The non-NaN values a grid cell takes across a list of snapshots. -/
def cellVals (samples : List SicSample) (i : ℕ) : List ℚ :=
  samples.filterMap (fun s => (s.cells.get? i).getD none)

/-- `ds_sic_day.mean("time")`: cell-wise skip-NaN mean over the day's
snapshots. -/
def sicDayMean (ncells : ℕ) (samples : List SicSample) : List (Option ℚ) :=
  (List.range ncells).map (fun i => nanmean (cellVals samples i))

/-- One point of the map's colored track: the columns `build_map` extracts
into its DataFrame. -/
structure TrackPt where
  longitude : ℚ
  latitude : ℚ
  hour_of_day : ℚ
deriving Repr, DecidableEq

/-- The `pts` layer of the map: the track points together with the marker
styling handed to `hvplot.points`. -/
structure PointsPlot where
  data : List TrackPt
  size : ℚ
  alpha : ℚ
deriving Repr, DecidableEq

/-- Output of `build_map`: an optional rasterized SIC layer (the quadmesh
drawn from the daily-mean grid) overlaid with the point track. -/
structure MapOut where
  raster : Option (List (Option ℚ))
  track : PointsPlot
deriving Repr, DecidableEq

/-- `build_map`: extract the (longitude, latitude, hour_of_day) DataFrame
(`dropna` keeps every row since navigation values are total here), build
the points layer, and overlay the SIC quadmesh exactly when the toggle is
on and a daily mean was supplied. -/
def build_map (ds_day : NavDS) (ds_sic_day_mean : Option (List (Option ℚ)))
    (size alpha : ℚ) (show_sic : Bool) : MapOut :=
  let df := ds_day.map (fun r => TrackPt.mk r.longitude r.latitude r.hour_of_day)
  let pts : PointsPlot := { data := df, size := size, alpha := alpha }
  match show_sic, ds_sic_day_mean with
  | true, some sic => { raster := some sic, track := pts }
  | _, _ => { raster := none, track := pts }

/-- Output of `build_timeseries`: the day slice the six scatter panels are
drawn from, with their shared styling.  (The panels all read the same
`ds_day`; its `hour_of_day` coordinate is always present after load.) -/
structure TsOut where
  data : NavDS
  size : ℚ
  alpha : ℚ
deriving Repr, DecidableEq

/-- `build_timeseries`: the stacked scatter panels over the day slice. -/
def build_timeseries (ds_day : NavDS) (size alpha : ℚ) : TsOut :=
  { data := ds_day, size := size, alpha := alpha }

/-- Output of `view`: the map on top of the time-series stack. -/
structure ViewOut where
  mp : MapOut
  ts : TsOut
deriving Repr, DecidableEq

/-- `view`: slice the navigation data for the widgets' values, compute the
day's SIC mean only when the toggle is on and the day has SIC snapshots,
and assemble the two panes (the map's marker size is `pointsize + 1`). -/
def view (ds : NavDS) (ds_sic : SicDS) (day : ℤ) (coarsen : ℕ)
    (t_range : Option (ℚ × ℚ)) (pointsize alpha : ℚ) (show_sic : Bool) :
    ViewOut :=
  let ds_day := _ds_for_view ds day coarsen t_range
  let ds_sic_day := sicSelDay ds_sic day
  let ds_sic_day_mean : Option (List (Option ℚ)) :=
    if show_sic ∧ ds_sic_day.length > 0 then
      some (sicDayMean ds_sic.ncells ds_sic_day)
    else none
  let ts := build_timeseries ds_day pointsize alpha
  let mp := build_map ds_day ds_sic_day_mean (pointsize + 1) alpha show_sic
  { mp := mp, ts := ts }

/-- A filesystem path; only its identity and existence matter here. -/
abbrev FPath := String

/-- The loop body of `_resolve_path`: return the first candidate that
exists. -/
def resolveLoop (exists? : FPath → Bool) : List FPath → Option FPath
  | [] => none
  | p :: ps => if exists? p then some p else resolveLoop exists? ps

/-- `_resolve_path`: first existing candidate, falling back to
`candidates[0]` when none exists "so user sees a clear error from xarray".
Both call sites pass a literal two-element list, so the candidate list is
taken non-empty as head plus rest. -/
def _resolve_path (exists? : FPath → Bool) (c0 : FPath) (rest : List FPath) :
    FPath :=
  (resolveLoop exists? (c0 :: rest)).getD c0

/-- `xr.open_dataset`, as the loading library behaves at the one point the
script relies on: opening a path that exists yields that file's contents,
opening a missing path raises (surfaces) a file-not-found error rather
than returning empty data. -/
def open_dataset (exists? : FPath → Bool) (contents : FPath → NavDS)
    (p : FPath) : Except String NavDS :=
  if exists? p then Except.ok (contents p) else Except.error p

/-- The process-wide state after startup: the two cached datasets
(`DS, DS_SIC = load_data()`). -/
structure GlobalState where
  DS : NavDS
  DS_SIC : SicDS
deriving Repr, DecidableEq

/-- The widget values a single `view` callback reads. -/
structure ViewParams where
  day : ℤ
  coarsen : ℕ
  t_range : Option (ℚ × ℚ)
  pointsize : ℚ
  alpha : ℚ
  show_sic : Bool
deriving Repr, DecidableEq

/-- One reactive invocation of `view` as a step on the global state: the
callback reads `DS` and `DS_SIC`, builds its output from them, and binds
nothing global — translated as returning the output together with the
state it leaves behind. -/
def viewStep (st : GlobalState) (p : ViewParams) : ViewOut × GlobalState :=
  (view st.DS st.DS_SIC p.day p.coarsen p.t_range p.pointsize p.alpha
    p.show_sic, st)

/-- The state after running a whole sequence of view callbacks. -/
def runViews (st : GlobalState) (ps : List ViewParams) : GlobalState :=
  ps.foldl (fun s p => (viewStep s p).2) st

/-! Helper lemmas -/

theorem foldl_min_le (ts : List ℚ) (t : ℚ) :
    ∀ x ∈ t :: ts, ts.foldl min t ≤ x := by
  induction ts generalizing t with
  | nil =>
    intro x hx
    rcases List.mem_cons.mp hx with h | h
    · simp [h]
    · cases h
  | cons t' ts ih =>
    intro x hx
    have hmin : ts.foldl min (min t t') ≤ min t t' :=
      ih (min t t') (min t t') (List.mem_cons_self _ _)
    have step : (t' :: ts).foldl min t = ts.foldl min (min t t') := rfl
    rw [step]
    rcases List.mem_cons.mp hx with h | h
    · rw [h]; exact le_trans hmin (min_le_left _ _)
    · rcases List.mem_cons.mp h with h' | h'
      · rw [h']; exact le_trans hmin (min_le_right _ _)
      · exact ih (min t t') x (List.mem_cons_of_mem _ h')

theorem foldl_min_mem (ts : List ℚ) (t : ℚ) :
    ts.foldl min t ∈ t :: ts := by
  induction ts generalizing t with
  | nil => simp
  | cons t' ts ih =>
    have step : (t' :: ts).foldl min t = ts.foldl min (min t t') := rfl
    rw [step]
    rcases List.mem_cons.mp (ih (min t t')) with h | h
    · rw [h]
      rcases min_choice t t' with hc | hc <;> rw [hc]
      · exact List.mem_cons_self _ _
      · exact List.mem_cons_of_mem _ (List.mem_cons_self _ _)
    · exact List.mem_cons_of_mem _ (List.mem_cons_of_mem _ h)

theorem le_foldl_max (ts : List ℚ) (t : ℚ) :
    ∀ x ∈ t :: ts, x ≤ ts.foldl max t := by
  induction ts generalizing t with
  | nil =>
    intro x hx
    rcases List.mem_cons.mp hx with h | h
    · simp [h]
    · cases h
  | cons t' ts ih =>
    intro x hx
    have hmax : max t t' ≤ ts.foldl max (max t t') :=
      ih (max t t') (max t t') (List.mem_cons_self _ _)
    have step : (t' :: ts).foldl max t = ts.foldl max (max t t') := rfl
    rw [step]
    rcases List.mem_cons.mp hx with h | h
    · rw [h]; exact le_trans (le_max_left _ _) hmax
    · rcases List.mem_cons.mp h with h' | h'
      · rw [h']; exact le_trans (le_max_right _ _) hmax
      · exact ih (max t t') x (List.mem_cons_of_mem _ h')

theorem foldl_max_mem (ts : List ℚ) (t : ℚ) :
    ts.foldl max t ∈ t :: ts := by
  induction ts generalizing t with
  | nil => simp
  | cons t' ts ih =>
    have step : (t' :: ts).foldl max t = ts.foldl max (max t t') := rfl
    rw [step]
    rcases List.mem_cons.mp (ih (max t t')) with h | h
    · rw [h]
      rcases max_choice t t' with hc | hc <;> rw [hc]
      · exact List.mem_cons_self _ _
      · exact List.mem_cons_of_mem _ (List.mem_cons_self _ _)
    · exact List.mem_cons_of_mem _ (List.mem_cons_of_mem _ h)

/-- A timestamp renders to day string `d` iff it lies within `d`'s
86400-second window: the day-string selection of `_sel_day` and the
day-index grouping of `DAYS` agree. -/
theorem dayOf_eq_iff (t : ℚ) (d : ℤ) :
    dayOf t = d ↔ (86400 * (d : ℚ) ≤ t ∧ t < 86400 * ((d : ℚ) + 1)) := by
  unfold dayOf
  rw [Int.floor_eq_iff]
  constructor
  · rintro ⟨h1, h2⟩
    constructor
    · have := (le_div_iff₀ (by norm_num : (0:ℚ) < 86400)).mp h1
      linarith
    · have := (div_lt_iff₀ (by norm_num : (0:ℚ) < 86400)).mp h2
      linarith
  · rintro ⟨h1, h2⟩
    constructor
    · rw [le_div_iff₀ (by norm_num : (0:ℚ) < 86400)]
      linarith
    · rw [div_lt_iff₀ (by norm_num : (0:ℚ) < 86400)]
      linarith

/-- `_sel_day` keeps exactly the records whose timestamp belongs to the
requested day. -/
theorem sel_day_eq_filter_day (ds : NavDS) (d : ℤ) :
    _sel_day ds d = ds.filter (fun r => decide (dayOf r.time = d)) := by
  unfold _sel_day
  apply List.filter_congr
  intro r _
  rw [decide_eq_decide]
  exact (dayOf_eq_iff r.time d).symm

theorem chunksTrim_length {α : Type} (k : ℕ) (hk : 0 < k) :
    ∀ (n : ℕ) (l : List α), l.length = n → (chunksTrim k l).length = n / k := by
  intro n
  induction n using Nat.strong_induction_on with
  | _ n ih =>
    intro l hn
    rw [chunksTrim]
    by_cases h : k ≤ l.length
    · rw [dif_pos ⟨hk, h⟩, List.length_cons,
        ih (l.length - k) (by omega) (l.drop k) (by simp)]
      rw [← hn]
      exact (Nat.div_eq_sub_div hk h).symm
    · rw [dif_neg (by omega)]
      rw [← hn]
      exact (Nat.div_eq_of_lt (by omega)).symm

/-- The raster layer of the assembled view: present exactly when the SIC
toggle is on and the day has SIC snapshots, in which case it is the
day's cell-wise mean grid. -/
theorem view_raster_eq (ds : NavDS) (sic : SicDS) (day : ℤ) (k : ℕ)
    (tr : Option (ℚ × ℚ)) (s a : ℚ) (b : Bool) :
    (view ds sic day k tr s a b).mp.raster =
      if b ∧ (sicSelDay sic day).length > 0 then
        some (sicDayMean sic.ncells (sicSelDay sic day))
      else none := by
  cases b
  · simp [view, build_map]
  · by_cases h : (sicSelDay sic day).length > 0
    · simp [view, build_map, h]
    · simp [view, build_map, h]

/-- The track layer of the assembled view: the sliced day's
(longitude, latitude, hour_of_day) points with the marker styling,
independent of the SIC toggle. -/
theorem view_track_eq (ds : NavDS) (sic : SicDS) (day : ℤ) (k : ℕ)
    (tr : Option (ℚ × ℚ)) (s a : ℚ) (b : Bool) :
    (view ds sic day k tr s a b).mp.track =
      { data := (_ds_for_view ds day k tr).map
          (fun r => TrackPt.mk r.longitude r.latitude r.hour_of_day),
        size := s + 1, alpha := a } := by
  cases b
  · simp [view, build_map]
  · by_cases h : (sicSelDay sic day).length > 0 <;>
      simp [view, build_map, h]

/-! Claim theorems -/

/-- C4: Time-range filtering is idempotent — for every day slice and every
time range, filtering the slice and then filtering the result again to the
same bounds yields the same record count as filtering once. -/
theorem filter_timerange_idempotent (ds_day : NavDS) (tr : Option (ℚ × ℚ)) :
    (_filter_timerange (_filter_timerange ds_day tr) tr).length =
      (_filter_timerange ds_day tr).length := by
  match tr with
  | none => rfl
  | some (t0, t1) =>
    simp only [_filter_timerange]
    rw [List.filter_filter]
    congr 1
    apply List.filter_congr
    intro r _
    rw [Bool.and_self]

/-- C5: With the SIC toggle off the map output carries no raster layer,
and its colored point track is identical to the one produced with the
toggle on — the toggle changes only the raster layer. -/
theorem sic_toggle_changes_only_raster (ds : NavDS) (sic : SicDS) (day : ℤ)
    (k : ℕ) (tr : Option (ℚ × ℚ)) (s a : ℚ) :
    (view ds sic day k tr s a false).mp.raster = none ∧
    (view ds sic day k tr s a false).mp.track =
      (view ds sic day k tr s a true).mp.track ∧
    (view ds sic day k tr s a false).ts =
      (view ds sic day k tr s a true).ts := by
  refine ⟨?_, ?_, rfl⟩
  · rw [view_raster_eq]
    simp
  · rw [view_track_eq, view_track_eq]

/-- C6: startup raises its fatal `RuntimeError` exactly when the list of
days derived from the loaded navigation time coordinate is empty. -/
theorem startup_guard_iff (ds : NavDS) :
    (∃ e, startupDays ds = Except.error e) ↔ daysOf ds = [] := by
  simp only [startupDays]
  by_cases h : (daysOf ds).length = 0
  · rw [if_pos h]
    simpa using List.length_eq_zero.mp h
  · rw [if_neg h]
    constructor
    · rintro ⟨e, he⟩
      exact Except.noConfusion he
    · intro hnil
      rw [hnil] at h
      exact absurd rfl h

/-- C8: the view slicer is the composition "select the day's records, then
block-average when the coarsening factor exceeds 1, then filter to the
time window"; every record surviving a concrete window lies inside it
(and, being a function of its arguments, the slicer is deterministic). -/
theorem ds_for_view_stages (ds : NavDS) (day : ℤ) (k : ℕ)
    (tr : Option (ℚ × ℚ)) :
    (_ds_for_view ds day k tr = _filter_timerange (_prep_day ds day k) tr) ∧
    (_prep_day ds day k =
      if 1 < k then coarsenMean k (_sel_day ds day) else _sel_day ds day) ∧
    (∀ t0 t1, tr = some (t0, t1) →
      ∀ r ∈ _ds_for_view ds day k tr, t0 ≤ r.time ∧ r.time ≤ t1) := by
  refine ⟨rfl, rfl, ?_⟩
  rintro t0 t1 rfl r hr
  exact of_decide_eq_true (List.mem_filter.mp hr).2

/-- C8 witness: the slicer stages evaluated at a concrete dataset, day and
window, the window hypothesis discharged at `(5, 20)`. -/
theorem ds_for_view_stages_witness :
    (5 : ℚ) ≤ (NavRec.mk 10 1 2 3 4 5 6 0).time ∧
      (NavRec.mk 10 1 2 3 4 5 6 0).time ≤ 20 :=
  (ds_for_view_stages [NavRec.mk 10 1 2 3 4 5 6 0] 0 1 (some (5, 20))).2.2
    5 20 rfl (NavRec.mk 10 1 2 3 4 5 6 0)
    (by norm_num [_ds_for_view, _prep_day, _sel_day, _filter_timerange])

/-- C9: running any sequence of view computations leaves the two source
datasets of the global state unchanged — derived views never mutate the
navigation or sea-ice data. -/
theorem views_preserve_sources (st : GlobalState) (ps : List ViewParams) :
    (runViews st ps).DS = st.DS ∧ (runViews st ps).DS_SIC = st.DS_SIC := by
  have h : ∀ st' : GlobalState, runViews st' ps = st' := by
    induction ps with
    | nil => intro st'; rfl
    | cons p ps ih => intro st'; exact ih st'
  rw [h st]
  exact ⟨rfl, rfl⟩

/-- C10: the SIC raster of the view depends only on the selected day and
the toggle — it equals the cell-wise mean over the day's SIC snapshots,
is invariant under time-range/coarsening/marker/alpha changes, and is
absent when the day has no SIC snapshots. -/
theorem sic_raster_depends_only_on_day (ds : NavDS) (sic : SicDS) (day : ℤ)
    (b : Bool) (k1 k2 : ℕ) (tr1 tr2 : Option (ℚ × ℚ)) (s1 s2 a1 a2 : ℚ) :
    ((view ds sic day k1 tr1 s1 a1 b).mp.raster =
        (view ds sic day k2 tr2 s2 a2 b).mp.raster) ∧
    ((view ds sic day k1 tr1 s1 a1 b).mp.raster =
        if b ∧ (sicSelDay sic day).length > 0 then
          some (sicDayMean sic.ncells (sicSelDay sic day))
        else none) ∧
    (sicSelDay sic day = [] →
        (view ds sic day k1 tr1 s1 a1 b).mp.raster = none) := by
  refine ⟨by rw [view_raster_eq, view_raster_eq], view_raster_eq .., ?_⟩
  intro h
  rw [view_raster_eq, h]
  simp

/-- C10 witness: a day with no SIC snapshots yields no raster, at a
concrete dataset whose single SIC snapshot lies on a different day. -/
theorem sic_raster_depends_only_on_day_witness :
    (view [NavRec.mk 10 1 2 3 4 5 6 0] (SicDS.mk 1 [SicSample.mk 100000 [some 50]])
        0 1 none 1 1 true).mp.raster = none :=
  (sic_raster_depends_only_on_day [NavRec.mk 10 1 2 3 4 5 6 0]
      (SicDS.mk 1 [SicSample.mk 100000 [some 50]]) 0 true 1 2 none
      (some (0, 10)) 1 2 1 1).2.2 (by norm_num [sicSelDay])

/-- C2: for every day present in the navigation time coordinate, the
computed time-range bounds are defined and equal the minimum and maximum
timestamps of that day's records. -/
theorem make_timerange_day_bounds (ds : NavDS) (d : ℤ) (hd : d ∈ daysOf ds) :
    ∃ t0 t1, _make_timerange ds d = some (t0, t1) ∧ t0 ≤ t1 ∧
      t0 ∈ (ds.filter (fun r => decide (dayOf r.time = d))).map NavRec.time ∧
      t1 ∈ (ds.filter (fun r => decide (dayOf r.time = d))).map NavRec.time ∧
      ∀ t ∈ (ds.filter (fun r => decide (dayOf r.time = d))).map NavRec.time,
        t0 ≤ t ∧ t ≤ t1 := by
  have hsel := sel_day_eq_filter_day ds d
  obtain ⟨r, hr, hrd⟩ := List.mem_map.mp (List.mem_dedup.mp hd)
  have hrmem : r ∈ _sel_day ds d := by
    rw [hsel]
    exact List.mem_filter.mpr ⟨hr, by simp [hrd]⟩
  have hmm : r.time ∈ (_sel_day ds d).map NavRec.time :=
    List.mem_map_of_mem NavRec.time hrmem
  cases hts : (_sel_day ds d).map NavRec.time with
  | nil => rw [hts] at hmm; cases hmm
  | cons t ts =>
    refine ⟨ts.foldl min t, ts.foldl max t, ?_, ?_, ?_, ?_, ?_⟩
    · unfold _make_timerange
      rw [hts]
    · exact le_foldl_max ts t _ (foldl_min_mem ts t)
    · rw [← hsel, hts]
      exact foldl_min_mem ts t
    · rw [← hsel, hts]
      exact foldl_max_mem ts t
    · rw [← hsel, hts]
      intro x hx
      exact ⟨foldl_min_le ts t x hx, le_foldl_max ts t x hx⟩

/-- C2 witness: on a two-sample day the bounds evaluate to that day's
min/max timestamps, the day-membership hypothesis discharged at day 0. -/
theorem make_timerange_day_bounds_witness :
    (0 : ℤ) ∈ daysOf [NavRec.mk 10 1 2 3 4 5 6 0, NavRec.mk 20 1 2 3 4 5 6 0] ∧
    ∃ t0 t1,
      _make_timerange [NavRec.mk 10 1 2 3 4 5 6 0, NavRec.mk 20 1 2 3 4 5 6 0] 0
          = some (t0, t1) ∧ t0 ≤ t1 ∧
      t0 ∈ ([NavRec.mk 10 1 2 3 4 5 6 0, NavRec.mk 20 1 2 3 4 5 6 0].filter
          (fun r => decide (dayOf r.time = 0))).map NavRec.time ∧
      t1 ∈ ([NavRec.mk 10 1 2 3 4 5 6 0, NavRec.mk 20 1 2 3 4 5 6 0].filter
          (fun r => decide (dayOf r.time = 0))).map NavRec.time ∧
      ∀ t ∈ ([NavRec.mk 10 1 2 3 4 5 6 0, NavRec.mk 20 1 2 3 4 5 6 0].filter
          (fun r => decide (dayOf r.time = 0))).map NavRec.time,
        t0 ≤ t ∧ t ≤ t1 :=
  have hd : (0 : ℤ) ∈
      daysOf [NavRec.mk 10 1 2 3 4 5 6 0, NavRec.mk 20 1 2 3 4 5 6 0] :=
    List.mem_dedup.mpr (List.mem_map.mpr
      ⟨NavRec.mk 10 1 2 3 4 5 6 0, List.mem_cons_self _ _,
        (dayOf_eq_iff 10 0).mpr (by norm_num)⟩)
  ⟨hd, make_timerange_day_bounds _ 0 hd⟩

/-- C3: coarsening a day slice with factor 1 is a no-op, and coarsening
with factor `k > 1` leaves `⌊n/k⌋` of the slice's `n` time samples. -/
theorem prep_day_coarsen_counts (ds : NavDS) (day : ℤ) :
    _prep_day ds day 1 = _sel_day ds day ∧
    ∀ k, 1 < k →
      (_prep_day ds day k).length = (_sel_day ds day).length / k := by
  constructor
  · simp [_prep_day]
  · intro k hk
    simp only [_prep_day, if_pos hk, coarsenMean, List.length_map]
    exact chunksTrim_length k (by omega) _ _ rfl

/-- C3 witness: a five-sample day coarsened by 2 keeps `5 / 2 = 2`
samples, the factor hypothesis discharged at `k = 2`. -/
theorem prep_day_coarsen_counts_witness :
    1 < 2 ∧
    (_prep_day [NavRec.mk 10 1 2 3 4 5 6 0, NavRec.mk 20 1 2 3 4 5 6 0,
        NavRec.mk 30 1 2 3 4 5 6 0, NavRec.mk 40 1 2 3 4 5 6 0,
        NavRec.mk 50 1 2 3 4 5 6 0] 0 2).length =
      (_sel_day [NavRec.mk 10 1 2 3 4 5 6 0, NavRec.mk 20 1 2 3 4 5 6 0,
        NavRec.mk 30 1 2 3 4 5 6 0, NavRec.mk 40 1 2 3 4 5 6 0,
        NavRec.mk 50 1 2 3 4 5 6 0] 0).length / 2 :=
  ⟨by decide,
    (prep_day_coarsen_counts [NavRec.mk 10 1 2 3 4 5 6 0,
        NavRec.mk 20 1 2 3 4 5 6 0, NavRec.mk 30 1 2 3 4 5 6 0,
        NavRec.mk 40 1 2 3 4 5 6 0, NavRec.mk 50 1 2 3 4 5 6 0] 0).2
      2 (by decide)⟩

theorem resolveLoop_first (exists? : FPath → Bool) :
    ∀ (l : List FPath) (i : ℕ) (p : FPath), l[i]? = some p →
      exists? p = true → (∀ q ∈ l.take i, exists? q = false) →
      resolveLoop exists? l = some p := by
  intro l
  induction l with
  | nil => intro i p hp; simp at hp
  | cons x xs ih =>
    intro i p hp hex hprev
    cases i with
    | zero =>
      rw [List.getElem?_cons_zero] at hp
      injection hp with hp
      subst hp
      unfold resolveLoop
      rw [hex]
      simp
    | succ i =>
      rw [List.getElem?_cons_succ] at hp
      have hx : exists? x = false := by
        apply hprev
        rw [List.take_succ_cons]
        exact List.mem_cons_self _ _
      unfold resolveLoop
      rw [hx]
      simp only [Bool.false_eq_true, if_false]
      refine ih i p hp hex (fun q hq => ?_)
      apply hprev
      rw [List.take_succ_cons]
      exact List.mem_cons_of_mem _ hq

theorem resolveLoop_none (exists? : FPath → Bool) :
    ∀ l : List FPath, (∀ q ∈ l, exists? q = false) →
      resolveLoop exists? l = none := by
  intro l
  induction l with
  | nil => intro _; rfl
  | cons x xs ih =>
    intro h
    unfold resolveLoop
    rw [h x (List.mem_cons_self _ _)]
    simp only [Bool.false_eq_true, if_false]
    exact ih (fun q hq => h q (List.mem_cons_of_mem _ hq))

/-- C7: path resolution returns the first existing candidate in order;
when no candidate exists it returns the first candidate, and opening that
path then surfaces the loading library's error rather than yielding empty
data. -/
theorem resolve_path_spec (exists? : FPath → Bool) (c0 : FPath)
    (rest : List FPath) :
    (∀ i p, (c0 :: rest)[i]? = some p → exists? p = true →
        (∀ q ∈ (c0 :: rest).take i, exists? q = false) →
        _resolve_path exists? c0 rest = p) ∧
    ((∀ q ∈ c0 :: rest, exists? q = false) →
        _resolve_path exists? c0 rest = c0 ∧
        ∀ contents,
          open_dataset exists? contents (_resolve_path exists? c0 rest) =
            Except.error c0) := by
  constructor
  · intro i p hp hex hprev
    unfold _resolve_path
    rw [resolveLoop_first exists? _ i p hp hex hprev]
    rfl
  · intro hall
    have hres : _resolve_path exists? c0 rest = c0 := by
      unfold _resolve_path
      rw [resolveLoop_none exists? _ hall]
      rfl
    refine ⟨hres, fun contents => ?_⟩
    rw [hres]
    unfold open_dataset
    rw [hall c0 (List.mem_cons_self _ _)]
    simp

/-- C7 witness: with only the second of two candidates existing,
resolution picks it; with none existing, resolution falls back to the
first candidate and the load errors out there. -/
theorem resolve_path_spec_witness :
    _resolve_path (fun p => p == "fallback/data.nc") "data.nc"
        ["fallback/data.nc"] = "fallback/data.nc" ∧
    (_resolve_path (fun _ => false) "data.nc" ["fallback/data.nc"] =
        "data.nc" ∧
      open_dataset (fun _ => false) (fun _ => [])
          (_resolve_path (fun _ => false) "data.nc" ["fallback/data.nc"]) =
        Except.error "data.nc") :=
  ⟨(resolve_path_spec (fun p => p == "fallback/data.nc") "data.nc"
      ["fallback/data.nc"]).1 1 "fallback/data.nc" rfl (by decide)
      (by decide),
    ⟨((resolve_path_spec (fun _ => false) "data.nc" ["fallback/data.nc"]).2
        (by decide)).1,
      ((resolve_path_spec (fun _ => false) "data.nc" ["fallback/data.nc"]).2
        (by decide)).2 (fun _ => [])⟩⟩

/-- C1 counterexample: the load-time filter masks only values above 100,
so a negative concentration (here `-5`) is retained, refuting the claimed
lower bound of 0. -/
theorem sic_range_claim_counterexample :
    ¬ ∀ (raw : SicDS), ∀ s ∈ (loadSic raw).samples, ∀ c ∈ s.cells,
        ∀ v : ℚ, c = some v → 0 ≤ v ∧ v ≤ 100 := by
  intro h
  have hs : SicSample.mk 0 [some (-5)] ∈
      (loadSic (SicDS.mk 1 [SicSample.mk 0 [some (-5)]])).samples := by
    norm_num [loadSic, sicWhereLe100]
  have hc := h (SicDS.mk 1 [SicSample.mk 0 [some (-5)]]) _ hs (some (-5))
    (by norm_num) (-5) rfl
  norm_num at hc

/-- C1 (amended): at load, every retained SIC value satisfies
`sic ≤ 100` and every stored value above 100 is masked out; the lower
bound 0 is not enforced. -/
theorem sic_load_upper_bound (raw : SicDS) :
    (∀ s ∈ (loadSic raw).samples, ∀ c ∈ s.cells, ∀ v : ℚ, c = some v →
        v ≤ 100) ∧
    (∀ (j : ℕ) (s : SicSample), raw.samples[j]? = some s → ∀ (i : ℕ) (v : ℚ),
        s.cells[i]? = some (some v) → ¬ v ≤ 100 →
        ∃ s' : SicSample, (loadSic raw).samples[j]? = some s' ∧
          s'.cells[i]? = some none) := by
  constructor
  · intro s hs c hc v hv
    simp only [loadSic, sicWhereLe100] at hs
    obtain ⟨s0, hs0, rfl⟩ := List.mem_map.mp hs
    simp only at hc
    obtain ⟨c0, hc0, rfl⟩ := List.mem_map.mp hc
    rcases c0 with _ | w
    · simp at hv
    · by_cases hw : w ≤ 100
      · simp [hw] at hv
        exact hv ▸ hw
      · simp [hw] at hv
  · intro j s hj i v hi hv
    have h1 : (loadSic raw).samples[j]? =
        (raw.samples[j]?).map (fun s =>
          ({ time := s.time
             cells := s.cells.map (fun c =>
               match c with
               | some v => if v ≤ 100 then some v else none
               | none => none) } : SicSample)) := by
      simp [loadSic, sicWhereLe100]
    rw [hj] at h1
    refine ⟨_, h1, ?_⟩
    simp only
    rw [List.getElem?_map, hi]
    simp [hv]

/-- C1 witness for the amended claim: a grid holding 150 and 50 loads to a
masked cell and a retained cell; the retained 50 is within the upper
bound, and the 150 cell is masked to NaN. -/
theorem sic_load_upper_bound_witness :
    ((50 : ℚ) ≤ 100) ∧
    (∃ s', (loadSic (SicDS.mk 1 [SicSample.mk 0 [some 150, some 50]])
        ).samples[0]? = some s' ∧ s'.cells[0]? = some none) :=
  ⟨(sic_load_upper_bound (SicDS.mk 1 [SicSample.mk 0 [some 150, some 50]])).1
      (SicSample.mk 0 [none, some 50])
      (by norm_num [loadSic, sicWhereLe100]) (some 50) (by simp) 50 rfl,
    (sic_load_upper_bound (SicDS.mk 1 [SicSample.mk 0 [some 150, some 50]])).2
      0 (SicSample.mk 0 [some 150, some 50]) rfl 0 150 rfl (by norm_num)⟩
